import Mathlib

/-!
Verification development for the study-room reservation service.

The definitions below are a shallow embedding of the back-end domain logic:

  * back-end/routes/reservations.js   (checkBookingConflict and the
    create / update / cancel route handlers)
  * back-end/routes/signin.js         (check-in and check-out handlers)
  * back-end/models/SignIn.js         (pre-save hook computing actualDuration)
  * the Reservation and Room mongoose schemas, including the Room pre-save
    hook deriving occupancyStatus from currentOccupancy.

Conventions of the embedding:

  * "HH:MM" time-of-day strings are represented as minute-of-day naturals;
    the source compares such strings lexicographically, which on well-formed
    zero-padded "HH:MM" strings coincides with numeric comparison.
  * Mongo ObjectIds are represented as naturals; a single fresh-id counter
    `nextId` plays the role of ObjectId generation.
  * Date values (timestamps) are milliseconds since epoch, as in JS.
  * A route handler becomes a function `DB -> args -> DB x Option Err`:
    the returned DB is the persisted state when the handler finished
    (equal to the input DB whenever the handler returned before writing),
    and the error component mirrors the non-2xx responses (400 validation,
    403 forbidden, 404 notFound, 409 conflict, 500 internal).
  * JS falsy-field checks: an absent or falsy optional field is `none`.
-/

inductive RStatus
  | pending
  | confirmed
  | cancelled
  | completed
  | noShow
deriving DecidableEq, Repr

inductive SStatus
  | active
  | completed
  | abandoned
deriving DecidableEq, Repr

inductive OccStatus
  | available
  | occupied
  | maintenance
deriving DecidableEq, Repr

inductive Role
  | student
  | staff
  | admin
deriving DecidableEq, Repr

inductive Err
  | notFound (msg : String)
  | forbidden (msg : String)
  | validation (msg : String)
  | conflict (msg : String)
  | internal (msg : String)
deriving DecidableEq, Repr

/-- Reservation document (models/Reservation schema). -/
structure Reservation where
  id : Nat
  user : Nat
  room : Nat
  building : Nat
  reservationDate : Nat
  startTime : Nat
  endTime : Nat
  duration : Int
  purpose : String
  numberOfPeople : Nat
  notes : String
  status : RStatus
  cancelReason : Option String
  cancelledAt : Option Nat
  cancelledBy : Option Nat
  checkInTime : Option Nat
  checkOutTime : Option Nat
deriving DecidableEq, Repr

/-- Room document (models/Room schema); only the fields the embedded
routes read or write are kept. -/
structure Room where
  id : Nat
  building : Nat
  capacity : Nat
  currentOccupancy : Nat
  occupancyStatus : OccStatus
  lastUpdated : Nat
deriving DecidableEq, Repr

/-- SignIn document (models/SignIn.js). -/
structure SignIn where
  id : Nat
  user : Nat
  reservation : Nat
  room : Nat
  building : Nat
  signInTime : Nat
  signOutTime : Option Nat
  actualDuration : Option Int
  notes : String
  status : SStatus
deriving DecidableEq, Repr

/-- The persisted state the route handlers read and write. -/
structure DB where
  reservations : List Reservation
  rooms : List Room
  signIns : List SignIn
  buildings : List Nat
  nextId : Nat
deriving DecidableEq, Repr

def findReservation (db : DB) (i : Nat) : Option Reservation :=
  db.reservations.find? (fun r => decide (r.id = i))

def findRoom (db : DB) (i : Nat) : Option Room :=
  db.rooms.find? (fun r => decide (r.id = i))

def findSignIn (db : DB) (i : Nat) : Option SignIn :=
  db.signIns.find? (fun s => decide (s.id = i))

/-- `SignIn.findOne({reservation, status: 'active'})` in routes/signin.js. -/
def findActiveSignIn (db : DB) (rid : Nat) : Option SignIn :=
  db.signIns.find? (fun s => decide (s.reservation = rid) && decide (s.status = SStatus.active))

/-- `reservation.save()` on an existing document: replace by id. -/
def saveReservation (db : DB) (r : Reservation) : DB :=
  { db with reservations := db.reservations.map (fun x => if x.id = r.id then r else x) }

/-- Room pre-save hook (Room schema): derive occupancyStatus from
currentOccupancy, leaving a manual `maintenance` in place at zero occupancy. -/
def roomPreSave (now : Nat) (r : Room) : Room :=
  if r.currentOccupancy > 0 then
    { r with occupancyStatus := OccStatus.occupied, lastUpdated := now }
  else if r.occupancyStatus ≠ OccStatus.maintenance then
    { r with occupancyStatus := OccStatus.available, lastUpdated := now }
  else
    { r with lastUpdated := now }

/-- `room.save()`: run the pre-save hook, then replace by id. -/
def saveRoom (db : DB) (r : Room) (now : Nat) : DB :=
  let r2 := roomPreSave now r
  { db with rooms := db.rooms.map (fun x => if x.id = r2.id then r2 else x) }

/-- JS `Math.round((signOutTime - signInTime) / 60000)`: `Math.round x`
equals `floor (x + 1/2)`, so on the millisecond difference `d` this is
`floor ((2 * d + 60000) / 120000)`. -/
def jsRoundMinutes (d : Int) : Int :=
  Int.fdiv (2 * d + 60000) 120000

/-- SignIn pre-save hook (models/SignIn.js): once signOutTime is set,
recompute actualDuration in whole minutes.  (signInTime is a required
field, so only signOutTime gates the computation.) -/
def signInApplyHook (s : SignIn) : SignIn :=
  match s.signOutTime with
  | some t => { s with actualDuration := some (jsRoundMinutes ((t : Int) - (s.signInTime : Int))) }
  | none => s

/-- `signIn.save()` on an existing document: run the hook, replace by id. -/
def saveSignIn (db : DB) (s : SignIn) : DB :=
  let s2 := signInApplyHook s
  { db with signIns := db.signIns.map (fun x => if x.id = s2.id then s2 else x) }

/-- The per-document part of the conflict query in `checkBookingConflict`:
same room, same reservation date, status pending or confirmed, and not the
excluded id (when one is given). -/
def matchesConflictQuery (roomId date : Nat) (excludeId : Option Nat)
    (r : Reservation) : Bool :=
  decide (r.room = roomId) && decide (r.reservationDate = date) &&
    (decide (r.status = RStatus.pending) || decide (r.status = RStatus.confirmed)) &&
    (match excludeId with
     | some i => decide (r.id ≠ i)
     | none => true)

/-- The half-open interval overlap test from `checkBookingConflict`:
`!(endTime <= existing.startTime || startTime >= existing.endTime)`. -/
def overlapsB (s1 e1 s2 e2 : Nat) : Bool :=
  !(decide (e1 ≤ s2) || decide (s1 ≥ e2))

/-- `checkBookingConflict` (routes/reservations.js, lines 15-38). -/
def checkBookingConflict (db : DB) (roomId date startTime endTime : Nat)
    (excludeId : Option Nat) : Bool :=
  (db.reservations.filter (matchesConflictQuery roomId date excludeId)).any
    (fun ex => overlapsB startTime endTime ex.startTime ex.endTime)

/-- Request body of POST /api/reservations. -/
structure CreateReq where
  user : Nat
  room : Nat
  building : Nat
  reservationDate : Nat
  startTime : Nat
  endTime : Nat
  purpose : String
  numberOfPeople : Nat
  notes : String
deriving DecidableEq, Repr

/-- POST /api/reservations (routes/reservations.js, lines 121-193).
The falsy required-field check is kept for the two fields where a
falsy value is expressible in this model (empty purpose, zero people). -/
def createReservation (db : DB) (q : CreateReq) : DB × Option Err :=
  if q.purpose = "" ∨ q.numberOfPeople = 0 then
    (db, some (Err.validation "Missing required fields"))
  else
    match findRoom db q.room with
    | none => (db, some (Err.notFound "Room not found"))
    | some roomData =>
      if db.buildings.contains q.building then
        if roomData.capacity < q.numberOfPeople then
          (db, some (Err.validation "Room capacity exceeded"))
        else if checkBookingConflict db q.room q.reservationDate q.startTime q.endTime none then
          (db, some (Err.conflict "Time slot is already booked"))
        else if (q.endTime : Int) - (q.startTime : Int) ≤ 0 then
          (db, some (Err.validation "End time must be after start time"))
        else
          ({ db with
              reservations :=
                { id := db.nextId, user := q.user, room := q.room,
                  building := q.building, reservationDate := q.reservationDate,
                  startTime := q.startTime, endTime := q.endTime,
                  duration := (q.endTime : Int) - (q.startTime : Int),
                  purpose := q.purpose, numberOfPeople := q.numberOfPeople,
                  notes := q.notes, status := RStatus.pending,
                  cancelReason := none, cancelledAt := none, cancelledBy := none,
                  checkInTime := none, checkOutTime := none } :: db.reservations,
              nextId := db.nextId + 1 }, none)
      else
        (db, some (Err.notFound "Building not found"))

/-- Body of PUT /api/reservations/:id; `none` models an absent (or falsy)
field.  A status string outside the reservation enum behaves, for this
route, exactly like `noShow`: it fails the `=== 'confirmed'` gate test and
the `['confirmed','cancelled'].includes` application test. -/
structure UpdatePatch where
  startTime : Option Nat
  endTime : Option Nat
  numberOfPeople : Option Nat
  notes : Option String
  status : Option RStatus
deriving DecidableEq, Repr

/-- `if (notes) reservation.notes = notes` in the PUT handler. -/
def updateApplyNotes (p : UpdatePatch) (r : Reservation) : Reservation :=
  match p.notes with
  | some s => { r with notes := s }
  | none => r

/-- `if (status && ['confirmed','cancelled'].includes(status))` in the PUT
handler: the patched status is applied only when it is one of the two. -/
def updateApplyStatus (p : UpdatePatch) (r : Reservation) : Reservation :=
  match p.status with
  | some st =>
      if st = RStatus.confirmed ∨ st = RStatus.cancelled then
        { r with status := st }
      else r
  | none => r

/-- Tail of the PUT handler: apply notes, apply status when it is
`confirmed` or `cancelled`, then save. -/
def updateFinish (db : DB) (p : UpdatePatch) (r : Reservation) : DB × Option Err :=
  (saveReservation db (updateApplyStatus p (updateApplyNotes p r)), none)

/-- The `if (startTime) ... if (endTime) ...` assignments of the PUT
handler: merge the patched time fields into the reservation. -/
def mergeTimes (p : UpdatePatch) (r0 : Reservation) : Reservation :=
  if p.startTime.isSome || p.endTime.isSome then
    { r0 with startTime := p.startTime.getD r0.startTime,
              endTime := p.endTime.getD r0.endTime }
  else r0

/-- PUT /api/reservations/:id (routes/reservations.js, lines 200-270).
When a time field is supplied the conflict checker runs on the merged
interval, excluding the reservation itself; the people update refetches
the room (a missing room there is the handler's uncaught 500 path). -/
def updateReservation (db : DB) (rid callerId : Nat) (role : Role)
    (p : UpdatePatch) : DB × Option Err :=
  match findReservation db rid with
  | none => (db, some (Err.notFound "Reservation not found"))
  | some r0 =>
    if r0.user ≠ callerId ∧ role ≠ Role.admin then
      (db, some (Err.forbidden "Unauthorized"))
    else if r0.status ≠ RStatus.pending ∧ p.status ≠ some RStatus.confirmed then
      (db, some (Err.validation "Can only modify pending reservations"))
    else if (p.startTime.isSome || p.endTime.isSome) &&
        checkBookingConflict db r0.room r0.reservationDate
          (p.startTime.getD r0.startTime) (p.endTime.getD r0.endTime) (some r0.id) then
      (db, some (Err.conflict "New time slot is already booked"))
    else
      match p.numberOfPeople with
      | none => updateFinish db p (mergeTimes p r0)
      | some n =>
        match findRoom db (mergeTimes p r0).room with
        | none => (db, some (Err.internal "Error updating reservation"))
        | some room0 =>
          if room0.capacity < n then
            (db, some (Err.validation "Room capacity exceeded"))
          else updateFinish db p { mergeTimes p r0 with numberOfPeople := n }

/-- DELETE /api/reservations/:id (routes/reservations.js, lines 278-312). -/
def cancelReservation (db : DB) (rid callerId : Nat) (role : Role)
    (reason : Option String) (now : Nat) : DB × Option Err :=
  match findReservation db rid with
  | none => (db, some (Err.notFound "Reservation not found"))
  | some r0 =>
    if r0.user ≠ callerId ∧ role ≠ Role.admin then
      (db, some (Err.forbidden "Unauthorized"))
    else if r0.status = RStatus.pending ∨ r0.status = RStatus.confirmed then
      let r1 := { r0 with
        status := RStatus.cancelled
        cancelledAt := some now
        cancelledBy := some callerId
        cancelReason := some (reason.getD "") }
      (saveReservation db r1, none)
    else
      (db, some (Err.validation "Cannot cancel completed or already cancelled reservations"))

/-- Body of POST /api/signin. -/
structure CheckInReq where
  reservation : Nat
  room : Nat
  building : Nat
  notes : Option String
deriving DecidableEq, Repr

/-- The `new SignIn({...})` document built by the check-in handler. -/
def mkCheckInSignIn (db : DB) (q : CheckInReq) (userId now : Nat) : SignIn :=
  { id := db.nextId, user := userId, reservation := q.reservation,
    room := q.room, building := q.building, signInTime := now,
    signOutTime := none, actualDuration := none,
    notes := q.notes.getD "", status := SStatus.active }

/-- POST /api/signin (routes/signin.js, lines 20-83).  The new SignIn is
persisted before the room is fetched, so a missing room leaves the record
behind and surfaces as the handler's 500 path. -/
def checkIn (db : DB) (q : CheckInReq) (userId now : Nat) : DB × Option Err :=
  match findReservation db q.reservation with
  | none => (db, some (Err.notFound "Reservation not found"))
  | some r =>
    if r.user ≠ userId then
      (db, some (Err.forbidden "Unauthorized"))
    else if r.status = RStatus.pending ∨ r.status = RStatus.confirmed then
      if (findActiveSignIn db q.reservation).isSome then
        (db, some (Err.validation "Already checked in for this reservation"))
      else
        let db1 := { db with
          signIns := signInApplyHook (mkCheckInSignIn db q userId now) :: db.signIns
          nextId := db.nextId + 1 }
        match findRoom db1 q.room with
        | none => (db1, some (Err.internal "Error during check-in"))
        | some roomData =>
          (saveRoom db1 { roomData with currentOccupancy := roomData.currentOccupancy + 1 } now,
           none)
    else
      (db, some (Err.validation "Can only check in for pending or confirmed reservations"))

/-- POST /api/signin/:id/checkout (routes/signin.js, lines 92-145).
`Math.max(0, (occ || 1) - 1)` sends 0 to 0 and otherwise subtracts one,
which is exactly truncated natural subtraction.  The linked reservation is
updated only when it still exists. -/
def checkOut (db : DB) (sid userId : Nat) (notes : Option String) (now : Nat) :
    DB × Option Err :=
  match findSignIn db sid with
  | none => (db, some (Err.notFound "Check-in record not found"))
  | some s0 =>
    if s0.user ≠ userId then
      (db, some (Err.forbidden "Unauthorized"))
    else if s0.status ≠ SStatus.active then
      (db, some (Err.validation "Check-in is not active"))
    else
      let s1 := { s0 with
        signOutTime := some now
        status := SStatus.completed
        notes := notes.getD s0.notes }
      let db1 := saveSignIn db s1
      match findRoom db1 s1.room with
      | none => (db1, some (Err.internal "Error during check-out"))
      | some room0 =>
        let db2 := saveRoom db1 { room0 with currentOccupancy := room0.currentOccupancy - 1 } now
        match findReservation db2 s1.reservation with
        | none => (db2, none)
        | some r0 =>
          let r1 := { r0 with
            status := RStatus.completed
            checkInTime := some s1.signInTime
            checkOutTime := some now }
          (saveReservation db2 r1, none)

/-- The operation alphabet of the reservation lifecycle. -/
inductive Op
  | create (q : CreateReq)
  | update (rid callerId : Nat) (role : Role) (p : UpdatePatch)
  | cancel (rid callerId : Nat) (role : Role) (reason : Option String) (now : Nat)
  | checkin (q : CheckInReq) (userId now : Nat)
  | checkout (sid userId : Nat) (notes : Option String) (now : Nat)
deriving DecidableEq, Repr

def applyOp (db : DB) : Op → DB
  | Op.create q => (createReservation db q).1
  | Op.update rid c role p => (updateReservation db rid c role p).1
  | Op.cancel rid c role reason now => (cancelReservation db rid c role reason now).1
  | Op.checkin q u now => (checkIn db q u now).1
  | Op.checkout sid u notes now => (checkOut db sid u notes now).1

def runOps (db : DB) (ops : List Op) : DB := ops.foldl applyOp db

/-- status in {pending, confirmed}: the reservations the conflict checker
and the non-overlap invariant range over. -/
def isActive (r : Reservation) : Bool :=
  decide (r.status = RStatus.pending) || decide (r.status = RStatus.confirmed)

/-- One pair of the non-overlap invariant: two distinct pending/confirmed
reservations on the same room and date must not overlap. -/
def noOverlapPair (r1 r2 : Reservation) : Bool :=
  !(decide (r1.id ≠ r2.id) && decide (r1.room = r2.room) &&
    decide (r1.reservationDate = r2.reservationDate) &&
    isActive r1 && isActive r2 &&
    overlapsB r1.startTime r1.endTime r2.startTime r2.endTime)

/-- The spec's room/date non-overlap invariant, as an executable check. -/
def pairwiseNonOverlapping (db : DB) : Bool :=
  db.reservations.all (fun r1 => db.reservations.all (fun r2 => noOverlapPair r1 r2))

/-- Propositional form of the non-overlap invariant. -/
def InvND (db : DB) : Prop :=
  ∀ r1 ∈ db.reservations, ∀ r2 ∈ db.reservations, noOverlapPair r1 r2 = true

/-- The one update shape that reinstates a terminal reservation's interval
without a conflict recheck: a patch that sets status to `confirmed` on a
reservation that is not pending/confirmed while supplying neither time
field (so the conflict checker is skipped). -/
def updateResurrects (db : DB) (rid : Nat) (p : UpdatePatch) : Bool :=
  decide (p.status = some RStatus.confirmed) && decide (p.startTime = none) &&
    decide (p.endTime = none) &&
    (match findReservation db rid with
     | some r => !(isActive r)
     | none => false)

def resurrects (db : DB) : Op → Bool
  | Op.update rid _ _ p => updateResurrects db rid p
  | _ => false

/-- A trace of operations none of which, at its point of execution, is a
terminal-to-confirmed update without a time change. -/
def safeOps (db : DB) : List Op → Bool
  | [] => true
  | op :: rest => !(resurrects db op) && safeOps (applyOp db op) rest

/-! ### Concrete fixtures used by witnesses and counterexamples -/

def wRoom : Room :=
  { id := 1, building := 1, capacity := 5, currentOccupancy := 0,
    occupancyStatus := OccStatus.available, lastUpdated := 0 }

/-- A small initial state: one room, one building, nothing booked. -/
def wDB : DB :=
  { reservations := [], rooms := [wRoom], signIns := [], buildings := [1],
    nextId := 10 }

def wCreate (u s e : Nat) : CreateReq :=
  { user := u, room := 1, building := 1, reservationDate := 0, startTime := s,
    endTime := e, purpose := "studying", numberOfPeople := 2, notes := "" }

def wRes (i u s e : Nat) (st : RStatus) : Reservation :=
  { id := i, user := u, room := 1, building := 1, reservationDate := 0,
    startTime := s, endTime := e, duration := (e : Int) - (s : Int),
    purpose := "studying", numberOfPeople := 2, notes := "", status := st,
    cancelReason := none, cancelledAt := none, cancelledBy := none,
    checkInTime := none, checkOutTime := none }

/-- Patch that only sets status to confirmed. -/
def wPatchConfirm : UpdatePatch :=
  { startTime := none, endTime := none, numberOfPeople := none, notes := none,
    status := some RStatus.confirmed }

/-- The resurrect trace: book, cancel, rebook the same slot, then confirm
the cancelled reservation without touching its times. -/
def wOpsResurrect : List Op :=
  [ Op.create (wCreate 7 600 720),
    Op.cancel 10 7 Role.student none 1000,
    Op.create (wCreate 8 600 720),
    Op.update 10 7 Role.student wPatchConfirm ]

/-- A benign trace for the amended invariant's witness. -/
def wOpsSafe : List Op :=
  [ Op.create (wCreate 7 600 720),
    Op.cancel 10 7 Role.student none 1000,
    Op.create (wCreate 8 600 720),
    Op.update 11 8 Role.student wPatchConfirm ]

/-- The spec's reservation state machine, as a transition relation. -/
def allowedTransition : RStatus → RStatus → Bool
  | RStatus.pending, RStatus.confirmed => true
  | RStatus.pending, RStatus.cancelled => true
  | RStatus.confirmed, RStatus.cancelled => true
  | RStatus.confirmed, RStatus.completed => true
  | _, _ => false

/-- Well-formed reservation ids: below the fresh-id counter and pairwise
distinct (Mongo ObjectIds are unique). -/
def wfResIds (db : DB) : Prop :=
  (∀ r ∈ db.reservations, r.id < db.nextId) ∧
  db.reservations.Pairwise (fun a b => a.id ≠ b.id)

/-- An all-absent PUT body. -/
def wPatchNone : UpdatePatch :=
  { startTime := none, endTime := none, numberOfPeople := none, notes := none,
    status := none }

def wDBcancelled : DB :=
  { wDB with reservations := [wRes 10 7 600 720 RStatus.cancelled] }

def wResPending : Reservation := wRes 5 7 600 720 RStatus.pending

def wDBpending : DB := { wDB with reservations := [wResPending] }

def wCheckInReq5 : CheckInReq :=
  { reservation := 5, room := 1, building := 1, notes := none }

/-- Check in to the pending reservation, then check the sign-in out. -/
def wOpsInOut : List Op :=
  [Op.checkin wCheckInReq5 7 100000, Op.checkout 10 7 none 190000]

/-- The reservation as it looks after `cancelReservation` at time 99. -/
def wResCancelled5 : Reservation :=
  { wResPending with
    status := RStatus.cancelled
    cancelledAt := some 99
    cancelledBy := some 7
    cancelReason := some "" }

/-- The spec's derived-status contract for a room write: `new` is the room
as saved, `old` is the room as it was read before the write. -/
def derivedOccStatus (old new : Room) : Prop :=
  (0 < new.currentOccupancy → new.occupancyStatus = OccStatus.occupied) ∧
  (new.currentOccupancy = 0 →
    (old.occupancyStatus = OccStatus.maintenance ∧
      new.occupancyStatus = OccStatus.maintenance) ∨
    (old.occupancyStatus ≠ OccStatus.maintenance ∧
      new.occupancyStatus = OccStatus.available))

/-- An active SignIn for reservation 5. -/
def wSignInActive : SignIn :=
  { id := 3, user := 7, reservation := 5, room := 1, building := 1,
    signInTime := 100, signOutTime := none, actualDuration := none,
    notes := "", status := SStatus.active }

def wDBactive : DB :=
  { wDB with reservations := [wResPending], signIns := [wSignInActive] }

/-- An active SignIn whose linked reservation (id 5) does not exist. -/
def wDBdangling : DB := { wDB with signIns := [wSignInActive] }

/-- State with a pending booking [600,1200) on room 1. -/
def wDBbooked : DB :=
  { wDB with reservations := [wRes 5 7 600 1200 RStatus.pending] }

/-- A zero-length create request [900,900) inside the booked slot. -/
def wReqZero : CreateReq :=
  { user := 8, room := 1, building := 1, reservationDate := 0,
    startTime := 900, endTime := 900, purpose := "studying",
    numberOfPeople := 2, notes := "" }

/-- Room 1 as it looks right after the concrete check-in at t=100000. -/
def wRoomAfterCI : Room :=
  { id := 1, building := 1, capacity := 5, currentOccupancy := 1,
    occupancyStatus := OccStatus.occupied, lastUpdated := 100000 }

/-! ## General lemmas about the embedding -/

/-- Replacing, in a list, every element carrying a given id by a new element
with that id commutes with `find?` by id: the lookup now returns the new
element.  This is how every `save()` interacts with every `findById`. -/
theorem find?_map_replace {α : Type} (idf : α → Nat) {l : List α} {i : Nat} {a : α}
    (b : α) (h : l.find? (fun x => decide (idf x = i)) = some a) (hb : idf b = idf a) :
    (l.map (fun x => if idf x = idf b then b else x)).find?
      (fun x => decide (idf x = i)) = some b := by
  induction l with
  | nil => simp at h
  | cons c t ih =>
    by_cases hc : idf c = i
    · rw [List.find?_cons_of_pos _ (by simp [hc])] at h
      injection h with h
      subst h
      simp only [List.map_cons, if_pos hb.symm]
      exact List.find?_cons_of_pos _ (by simp [hb, hc])
    · rw [List.find?_cons_of_neg _ (by simp [hc])] at h
      have ha : idf a = i := by simpa using List.find?_some h
      have hne : ¬(idf c = idf b) := by rw [hb, ha]; exact hc
      simp only [List.map_cons, if_neg hne]
      rw [List.find?_cons_of_neg _ (by simp [hc])]
      exact ih h

/-- In a list whose elements carry pairwise distinct ids, membership plus
id equality forces equality of the elements. -/
theorem eq_of_mem_of_pairwise_ne {α : Type} {idf : α → Nat} {l : List α}
    (hp : l.Pairwise (fun x y => idf x ≠ idf y)) {a b : α}
    (ha : a ∈ l) (hb : b ∈ l) (hid : idf a = idf b) : a = b := by
  induction l with
  | nil => cases ha
  | cons c t ih =>
    rcases List.pairwise_cons.mp hp with ⟨hc, ht⟩
    rcases List.mem_cons.mp ha with rfl | ha'
    · rcases List.mem_cons.mp hb with rfl | hb'
      · rfl
      · exact absurd hid (hc b hb')
    · rcases List.mem_cons.mp hb with rfl | hb'
      · exact absurd hid.symm (hc a ha')
      · exact ih ht ha' hb'

/-- The interval-overlap test of the conflict checker is symmetric. -/
theorem overlapsB_symm (s1 e1 s2 e2 : Nat) :
    overlapsB s1 e1 s2 e2 = overlapsB s2 e2 s1 e1 := by
  simp [overlapsB, ge_iff_le, Bool.or_comm]

theorem isActive_iff (r : Reservation) :
    isActive r = true ↔ (r.status = RStatus.pending ∨ r.status = RStatus.confirmed) := by
  simp [isActive]

theorem matchesConflictQuery_iff (roomId date : Nat) (excl : Option Nat)
    (r : Reservation) :
    matchesConflictQuery roomId date excl r = true ↔
    (r.room = roomId ∧ r.reservationDate = date ∧ isActive r = true ∧
      ∀ i, excl = some i → r.id ≠ i) := by
  cases excl <;> simp [matchesConflictQuery, isActive, and_assoc]

theorem checkBookingConflict_eq_false_iff (db : DB) (roomId date s e : Nat)
    (excl : Option Nat) :
    checkBookingConflict db roomId date s e excl = false ↔
    ∀ r ∈ db.reservations, matchesConflictQuery roomId date excl r = true →
      overlapsB s e r.startTime r.endTime = false := by
  rw [← Bool.not_eq_true, checkBookingConflict, List.any_eq_true]
  push_neg
  constructor
  · intro h r hr hq
    have := h r (List.mem_filter.mpr ⟨hr, hq⟩)
    simpa using this
  · intro h r hr
    rcases List.mem_filter.mp hr with ⟨hmem, hq⟩
    simp [h r hmem hq]

/-! ## C2: the conflict checker decides exactly interval overlap -/

/-- C2: `hasConflict` returns true iff some pending/confirmed reservation
for the same room and calendar date, other than the excluded one, has an
interval `[s2,e2)` with `NOT(end <= s2 OR start >= e2)`; a proposal that
merely touches a boundary is therefore not a conflict. -/
theorem C2_hasConflict_iff (db : DB) (roomId date s e : Nat)
    (excl : Option Nat) (_hse : s < e) :
    checkBookingConflict db roomId date s e excl = true ↔
    ∃ r, r ∈ db.reservations ∧ r.room = roomId ∧ r.reservationDate = date ∧
      (r.status = RStatus.pending ∨ r.status = RStatus.confirmed) ∧
      (∀ i, excl = some i → r.id ≠ i) ∧
      ¬(e ≤ r.startTime ∨ s ≥ r.endTime) := by
  rw [checkBookingConflict, List.any_eq_true]
  constructor
  · rintro ⟨r, hr, hov⟩
    rcases List.mem_filter.mp hr with ⟨hmem, hq⟩
    rcases (matchesConflictQuery_iff roomId date excl r).mp hq with ⟨h1, h2, h3, h4⟩
    refine ⟨r, hmem, h1, h2, (isActive_iff r).mp h3, h4, ?_⟩
    simpa [overlapsB, not_or] using hov
  · rintro ⟨r, hmem, h1, h2, h3, h4, hov⟩
    refine ⟨r, List.mem_filter.mpr ⟨hmem, ?_⟩, ?_⟩
    · exact (matchesConflictQuery_iff roomId date excl r).mpr
        ⟨h1, h2, (isActive_iff r).mpr h3, h4⟩
    · simpa [overlapsB, not_or] using hov

/-! ## Lemmas about the non-overlap invariant -/

theorem noOverlapPair_refl (r : Reservation) : noOverlapPair r r = true := by
  simp [noOverlapPair]

theorem noOverlapPair_iff (r1 r2 : Reservation) :
    noOverlapPair r1 r2 = true ↔
    (r1.id ≠ r2.id → r1.room = r2.room → r1.reservationDate = r2.reservationDate →
      isActive r1 = true → isActive r2 = true →
      overlapsB r1.startTime r1.endTime r2.startTime r2.endTime = false) := by
  rcases h1 : isActive r1 <;> rcases h2 : isActive r2 <;>
    rcases hov : overlapsB r1.startTime r1.endTime r2.startTime r2.endTime <;>
    · simp [noOverlapPair, h1, h2, hov]
      try tauto

theorem pairwiseNonOverlapping_iff_InvND (db : DB) :
    pairwiseNonOverlapping db = true ↔ InvND db := by
  simp [pairwiseNonOverlapping, InvND, List.all_eq_true]

theorem InvND_of_eq_reservations (db db' : DB)
    (h : db'.reservations = db.reservations) (hi : InvND db) : InvND db' := by
  intro r1 h1 r2 h2
  rw [h] at h1 h2
  exact hi r1 h1 r2 h2

/-- Core preservation step: saving a modified reservation keeps the
invariant provided the saved version is terminal, or was conflict-checked
(excluding itself), or kept the interval of a still-active original. -/
theorem InvND_save (db : DB) (r0 r4 : Reservation) (h : InvND db)
    (hmem : r0 ∈ db.reservations) (hid : r4.id = r0.id) (hroom : r4.room = r0.room)
    (hdate : r4.reservationDate = r0.reservationDate)
    (hsafe : isActive r4 = false ∨
      checkBookingConflict db r4.room r4.reservationDate r4.startTime r4.endTime
        (some r4.id) = false ∨
      (isActive r0 = true ∧ r4.startTime = r0.startTime ∧ r4.endTime = r0.endTime)) :
    InvND (saveReservation db r4) := by
  have aux : ∀ y ∈ db.reservations, y.id ≠ r4.id → isActive r4 = true →
      isActive y = true → r4.room = y.room → r4.reservationDate = y.reservationDate →
      overlapsB r4.startTime r4.endTime y.startTime y.endTime = false := by
    intro y hy hyid ha4 hay hyroom hydate
    rcases hsafe with hterm | hconf | ⟨ha0, hs, he⟩
    · rw [hterm] at ha4; cases ha4
    · have hall := (checkBookingConflict_eq_false_iff db r4.room r4.reservationDate
        r4.startTime r4.endTime (some r4.id)).mp hconf
      refine hall y hy ?_
      refine (matchesConflictQuery_iff _ _ _ _).mpr ⟨hyroom.symm, hydate.symm, hay, ?_⟩
      intro i hi
      injection hi with hi
      rw [← hi]
      exact fun hcon => hyid hcon
    · have hpair := (noOverlapPair_iff r0 y).mp (h r0 hmem y hy)
      rw [hs, he]
      exact hpair (by rw [← hid]; exact fun hc => hyid hc.symm) (by rw [← hroom]; exact hyroom)
        (by rw [← hdate]; exact hydate) ha0 hay
  intro x1 h1 x2 h2
  rcases List.mem_map.mp h1 with ⟨y1, hy1, rfl⟩
  rcases List.mem_map.mp h2 with ⟨y2, hy2, rfl⟩
  by_cases e1 : y1.id = r4.id <;> by_cases e2 : y2.id = r4.id <;>
    simp only [if_pos, if_neg, e1, e2, if_true, if_false]
  · exact noOverlapPair_refl r4
  · rw [noOverlapPair_iff]
    intro hid' hroom' hdate' ha1 ha2
    exact aux y2 hy2 (fun hc => hid' hc.symm) ha1 ha2 hroom' hdate'
  · rw [noOverlapPair_iff]
    intro hid' hroom' hdate' ha1 ha2
    rw [overlapsB_symm]
    exact aux y1 hy1 e1 ha2 ha1 hroom'.symm hdate'.symm
  · exact h y1 hy1 y2 hy2

theorem mem_of_findReservation {db : DB} {i : Nat} {r : Reservation}
    (h : findReservation db i = some r) : r ∈ db.reservations :=
  List.mem_of_find?_eq_some h

theorem findReservation_id {db : DB} {i : Nat} {r : Reservation}
    (h : findReservation db i = some r) : r.id = i := by
  simpa using List.find?_some h

theorem mergeTimes_id (p : UpdatePatch) (r0 : Reservation) :
    (mergeTimes p r0).id = r0.id := by
  unfold mergeTimes; split <;> rfl

theorem mergeTimes_room (p : UpdatePatch) (r0 : Reservation) :
    (mergeTimes p r0).room = r0.room := by
  unfold mergeTimes; split <;> rfl

theorem mergeTimes_date (p : UpdatePatch) (r0 : Reservation) :
    (mergeTimes p r0).reservationDate = r0.reservationDate := by
  unfold mergeTimes; split <;> rfl

theorem mergeTimes_of_none {p : UpdatePatch} (r0 : Reservation)
    (h1 : p.startTime = none) (h2 : p.endTime = none) : mergeTimes p r0 = r0 := by
  unfold mergeTimes; simp [h1, h2]

theorem mergeTimes_start_of_some {p : UpdatePatch} (r0 : Reservation)
    (h : (p.startTime.isSome || p.endTime.isSome) = true) :
    (mergeTimes p r0).startTime = p.startTime.getD r0.startTime := by
  unfold mergeTimes; rw [if_pos h]

theorem mergeTimes_end_of_some {p : UpdatePatch} (r0 : Reservation)
    (h : (p.startTime.isSome || p.endTime.isSome) = true) :
    (mergeTimes p r0).endTime = p.endTime.getD r0.endTime := by
  unfold mergeTimes; rw [if_pos h]

theorem updateApplyNotes_fields (p : UpdatePatch) (r : Reservation) :
    (updateApplyNotes p r).id = r.id ∧ (updateApplyNotes p r).room = r.room ∧
    (updateApplyNotes p r).reservationDate = r.reservationDate ∧
    (updateApplyNotes p r).startTime = r.startTime ∧
    (updateApplyNotes p r).endTime = r.endTime ∧
    (updateApplyNotes p r).user = r.user ∧
    (updateApplyNotes p r).numberOfPeople = r.numberOfPeople ∧
    (updateApplyNotes p r).status = r.status ∧
    (updateApplyNotes p r).notes = p.notes.getD r.notes := by
  rcases hn : p.notes with _ | ns <;> simp [updateApplyNotes, hn]

theorem updateApplyStatus_fields (p : UpdatePatch) (r : Reservation) :
    (updateApplyStatus p r).id = r.id ∧ (updateApplyStatus p r).room = r.room ∧
    (updateApplyStatus p r).reservationDate = r.reservationDate ∧
    (updateApplyStatus p r).startTime = r.startTime ∧
    (updateApplyStatus p r).endTime = r.endTime ∧
    (updateApplyStatus p r).user = r.user ∧
    (updateApplyStatus p r).numberOfPeople = r.numberOfPeople ∧
    (updateApplyStatus p r).notes = r.notes := by
  rcases hst : p.status with _ | st
  · simp [updateApplyStatus, hst]
  · rcases st <;> simp [updateApplyStatus, hst]

theorem updateApplyStatus_status (p : UpdatePatch) (r : Reservation) :
    (p.status = some RStatus.confirmed ∧
      (updateApplyStatus p r).status = RStatus.confirmed) ∨
    (p.status = some RStatus.cancelled ∧
      (updateApplyStatus p r).status = RStatus.cancelled) ∨
    ((updateApplyStatus p r).status = r.status ∧
      p.status ≠ some RStatus.confirmed ∧ p.status ≠ some RStatus.cancelled) := by
  rcases hst : p.status with _ | st
  · exact Or.inr (Or.inr ⟨by simp [updateApplyStatus, hst], by simp [hst], by simp [hst]⟩)
  · rcases st <;> simp [updateApplyStatus, hst]

/-- Exhaustive description of the tail of the PUT handler: the saved
reservation keeps id/room/date/times/people of its input, merges notes,
and changes status exactly when the patch status is confirmed or
cancelled. -/
theorem updateFinish_eq (db : DB) (p : UpdatePatch) (r : Reservation) :
    ∃ r2, updateFinish db p r = (saveReservation db r2, none) ∧
      r2.id = r.id ∧ r2.room = r.room ∧ r2.reservationDate = r.reservationDate ∧
      r2.startTime = r.startTime ∧ r2.endTime = r.endTime ∧
      r2.user = r.user ∧ r2.numberOfPeople = r.numberOfPeople ∧
      r2.notes = p.notes.getD r.notes ∧
      ((p.status = some RStatus.confirmed ∧ r2.status = RStatus.confirmed) ∨
       (p.status = some RStatus.cancelled ∧ r2.status = RStatus.cancelled) ∨
       (r2.status = r.status ∧ p.status ≠ some RStatus.confirmed ∧
        p.status ≠ some RStatus.cancelled)) := by
  obtain ⟨n1, n2, n3, n4, n5, n6, n7, n8, n9⟩ := updateApplyNotes_fields p r
  obtain ⟨s1, s2, s3, s4, s5, s6, s7, s8⟩ :=
    updateApplyStatus_fields p (updateApplyNotes p r)
  refine ⟨updateApplyStatus p (updateApplyNotes p r), rfl,
    s1.trans n1, s2.trans n2, s3.trans n3, s4.trans n4, s5.trans n5,
    s6.trans n6, s7.trans n7, s8.trans n9, ?_⟩
  rcases updateApplyStatus_status p (updateApplyNotes p r) with h | h | ⟨h1, h2, h3⟩
  · exact Or.inl h
  · exact Or.inr (Or.inl h)
  · exact Or.inr (Or.inr ⟨h1.trans n8, h2, h3⟩)

/-- Creating a reservation preserves the non-overlap invariant: the new
document is persisted only after the conflict checker approved its
interval against every matching reservation. -/
theorem createReservation_preserves (db : DB) (q : CreateReq) (h : InvND db) :
    InvND (createReservation db q).1 := by
  unfold createReservation
  split
  · exact h
  split
  · exact h
  rename_i roomData hroomfind
  split
  · split
    · exact h
    split
    · exact h
    rename_i hconfNeg
    split
    · exact h
    · have hcf : checkBookingConflict db q.room q.reservationDate q.startTime
          q.endTime none = false := by
        revert hconfNeg
        rcases checkBookingConflict db q.room q.reservationDate q.startTime q.endTime none
          <;> simp
      have hall := (checkBookingConflict_eq_false_iff db q.room q.reservationDate
        q.startTime q.endTime none).mp hcf
      dsimp only
      intro r1 h1 r2 h2
      rcases List.mem_cons.mp h1 with rfl | h1' <;> rcases List.mem_cons.mp h2 with rfl | h2'
      · exact noOverlapPair_refl _
      · rw [noOverlapPair_iff]
        intro hid hroom hdate ha1 ha2
        refine hall r2 h2' ?_
        exact (matchesConflictQuery_iff _ _ _ _).mpr
          ⟨hroom.symm, hdate.symm, ha2, fun i hi => by cases hi⟩
      · rw [noOverlapPair_iff]
        intro hid hroom hdate ha1 ha2
        rw [overlapsB_symm]
        refine hall r1 h1' ?_
        exact (matchesConflictQuery_iff _ _ _ _).mpr
          ⟨hroom, hdate, ha1, fun i hi => by cases hi⟩
      · exact h r1 h1' r2 h2'
  · exact h

/-- Updating a reservation preserves the invariant, as long as the update
is not a terminal-to-confirmed flip without a time change (the one path
on which a terminal interval re-enters the active set unchecked). -/
theorem updateReservation_preserves (db : DB) (rid c : Nat) (role : Role)
    (p : UpdatePatch) (h : InvND db)
    (hres : updateResurrects db rid p = false) :
    InvND (updateReservation db rid c role p).1 := by
  unfold updateReservation
  split
  · exact h
  rename_i r0 hfind
  split
  · exact h
  split
  · exact h
  rename_i hgate
  split
  · exact h
  rename_i hcNeg
  have hmem : r0 ∈ db.reservations := mem_of_findReservation hfind
  have hkey : checkBookingConflict db r0.room r0.reservationDate
        (mergeTimes p r0).startTime (mergeTimes p r0).endTime (some r0.id) = false ∨
      (isActive r0 = true ∧ mergeTimes p r0 = r0) := by
    by_cases ht : (p.startTime.isSome || p.endTime.isSome) = true
    · left
      rw [mergeTimes_start_of_some r0 ht, mergeTimes_end_of_some r0 ht]
      revert hcNeg
      rcases checkBookingConflict db r0.room r0.reservationDate
        (p.startTime.getD r0.startTime) (p.endTime.getD r0.endTime) (some r0.id)
      · intro _; rfl
      · intro hc; exact absurd (by simp [ht]) hc
    · have h1 : p.startTime = none := by
        rcases hs : p.startTime with _ | v
        · rfl
        · exact absurd (by simp [hs]) ht
      have h2 : p.endTime = none := by
        rcases hs : p.endTime with _ | v
        · rfl
        · exact absurd (by simp [hs]) ht
      right
      refine ⟨?_, mergeTimes_of_none r0 h1 h2⟩
      rcases not_and_or.mp hgate with hp | hcf
      · have hp' : r0.status = RStatus.pending := not_not.mp hp
        simp [isActive, hp']
      · have hpc : p.status = some RStatus.confirmed := not_not.mp hcf
        have := hres
        rw [updateResurrects, hfind] at this
        simpa [hpc, h1, h2] using this
  split
  · rcases updateFinish_eq db p (mergeTimes p r0) with
      ⟨r2, heq, hid, hroom, hdate, hs, he, _, _, _, _⟩
    rw [heq]
    dsimp only
    refine InvND_save db r0 r2 h hmem (hid.trans (mergeTimes_id p r0))
      (hroom.trans (mergeTimes_room p r0)) (hdate.trans (mergeTimes_date p r0)) ?_
    rcases hkey with hconf | ⟨ha0, hmt⟩
    · right; left
      rw [hid.trans (mergeTimes_id p r0), hroom.trans (mergeTimes_room p r0),
        hdate.trans (mergeTimes_date p r0), hs, he]
      exact hconf
    · right; right
      exact ⟨ha0, by rw [hs, hmt], by rw [he, hmt]⟩
  · rename_i n hn
    split
    · exact h
    rename_i room0 hroomfind
    split
    · exact h
    · rcases updateFinish_eq db p { mergeTimes p r0 with numberOfPeople := n } with
        ⟨r2, heq, hid, hroom, hdate, hs, he, _, _, _, _⟩
      rw [heq]
      dsimp only
      refine InvND_save db r0 r2 h hmem (hid.trans (mergeTimes_id p r0))
        (hroom.trans (mergeTimes_room p r0)) (hdate.trans (mergeTimes_date p r0)) ?_
      rcases hkey with hconf | ⟨ha0, hmt⟩
      · right; left
        rw [hid.trans (mergeTimes_id p r0), hroom.trans (mergeTimes_room p r0),
          hdate.trans (mergeTimes_date p r0), hs, he]
        exact hconf
      · right; right
        refine ⟨ha0, ?_, ?_⟩
        · rw [hs]; show (mergeTimes p r0).startTime = r0.startTime; rw [hmt]
        · rw [he]; show (mergeTimes p r0).endTime = r0.endTime; rw [hmt]

/-- Cancelling a reservation preserves the invariant: the reservation
leaves the active set. -/
theorem cancelReservation_preserves (db : DB) (rid c : Nat) (role : Role)
    (reason : Option String) (now : Nat) (h : InvND db) :
    InvND (cancelReservation db rid c role reason now).1 := by
  unfold cancelReservation
  split
  · exact h
  rename_i r0 hfind
  split
  · exact h
  split
  · dsimp only
    refine InvND_save db r0 _ h (mem_of_findReservation hfind) rfl rfl rfl ?_
    left
    simp [isActive]
  · exact h

/-- Check-in never touches the reservations collection. -/
theorem checkIn_reservations_eq (db : DB) (q : CheckInReq) (u now : Nat) :
    ((checkIn db q u now).1).reservations = db.reservations := by
  unfold checkIn
  split
  · rfl
  split
  · rfl
  split
  · split
    · rfl
    · dsimp only
      split
      · rfl
      · rfl
  · rfl

/-- Check-out preserves the invariant: the only reservation it writes is
set to `completed`, which leaves the active set. -/
theorem checkOut_preserves (db : DB) (sid u : Nat) (notes : Option String)
    (now : Nat) (h : InvND db) : InvND (checkOut db sid u notes now).1 := by
  unfold checkOut
  split
  · exact h
  rename_i s0 hfind
  split
  · exact h
  split
  · exact h
  dsimp only
  split
  · exact InvND_of_eq_reservations db _ rfl h
  · split
    · exact InvND_of_eq_reservations db _ rfl h
    · rename_i r0 hrfind
      dsimp only
      exact InvND_save _ r0 _ (InvND_of_eq_reservations db _ rfl h)
        (mem_of_findReservation hrfind) rfl rfl rfl (Or.inl (by simp [isActive]))

theorem applyOp_preserves (db : DB) (op : Op) (h : InvND db)
    (hres : resurrects db op = false) : InvND (applyOp db op) := by
  cases op with
  | create q => exact createReservation_preserves db q h
  | update rid c role p =>
      exact updateReservation_preserves db rid c role p h (by simpa [resurrects] using hres)
  | cancel rid c role reason now => exact cancelReservation_preserves db rid c role reason now h
  | checkin q u now =>
      exact InvND_of_eq_reservations db _ (checkIn_reservations_eq db q u now) h
  | checkout sid u notes now => exact checkOut_preserves db sid u notes now h

theorem runOps_safe_preserves (ops : List Op) : ∀ db : DB, InvND db →
    safeOps db ops = true → InvND (runOps db ops) := by
  induction ops with
  | nil => intro db h _; exact h
  | cons op rest ih =>
    intro db h hs
    rw [safeOps, Bool.and_eq_true] at hs
    rcases hs with ⟨hs1, hs2⟩
    have hres : resurrects db op = false := by simpa using hs1
    exact ih (applyOp db op) (applyOp_preserves db op h hres) hs2

/-! ## C1: the room/date non-overlap invariant -/

/-- C1 (counterexample): the invariant is not preserved by arbitrary
operation sequences.  Starting from an empty, invariant-satisfying state,
the trace create-cancel-recreate-confirm leaves two overlapping
pending/confirmed reservations on the same room and date: the PUT handler
accepts `status = confirmed` on a cancelled reservation and, since the
patch carries no time field, never re-runs the conflict checker. -/
theorem C1_counterexample :
    pairwiseNonOverlapping wDB = true ∧
    pairwiseNonOverlapping (runOps wDB wOpsResurrect) = false := by
  constructor
  · decide
  · decide

/-- C1 (amended): after any sequence of createReservation,
updateReservation, cancelReservation, checkIn and checkOut operations in
which no updateReservation call sets status to `confirmed` on a
then-terminal reservation without supplying a time field, the set of
pending/confirmed reservations of each room and date has pairwise
non-overlapping [start,end) intervals. -/
theorem C1_amended_nonoverlap (db : DB) (ops : List Op)
    (h : pairwiseNonOverlapping db = true) (hs : safeOps db ops = true) :
    pairwiseNonOverlapping (runOps db ops) = true := by
  rw [pairwiseNonOverlapping_iff_InvND] at h ⊢
  exact runOps_safe_preserves ops db h hs

/-- Witness for the amended C1 on a concrete four-operation trace. -/
theorem C1_amended_witness :
    pairwiseNonOverlapping (runOps wDB wOpsSafe) = true :=
  C1_amended_nonoverlap wDB wOpsSafe (by decide) (by decide)

theorem mergeTimes_start (p : UpdatePatch) (r0 : Reservation) :
    (mergeTimes p r0).startTime = p.startTime.getD r0.startTime := by
  unfold mergeTimes
  split
  · rfl
  · rename_i hcond
    have h1 : p.startTime = none := by
      rcases hs : p.startTime with _ | v
      · rfl
      · exact absurd (by simp [hs]) hcond
    simp [h1]

theorem mergeTimes_end (p : UpdatePatch) (r0 : Reservation) :
    (mergeTimes p r0).endTime = p.endTime.getD r0.endTime := by
  unfold mergeTimes
  split
  · rfl
  · rename_i hcond
    have h2 : p.endTime = none := by
      rcases hs : p.endTime with _ | v
      · rfl
      · exact absurd (by simp [hs]) hcond
    simp [h2]

theorem mergeTimes_people (p : UpdatePatch) (r0 : Reservation) :
    (mergeTimes p r0).numberOfPeople = r0.numberOfPeople := by
  unfold mergeTimes; split <;> rfl

theorem mergeTimes_notes (p : UpdatePatch) (r0 : Reservation) :
    (mergeTimes p r0).notes = r0.notes := by
  unfold mergeTimes; split <;> rfl

theorem mergeTimes_user (p : UpdatePatch) (r0 : Reservation) :
    (mergeTimes p r0).user = r0.user := by
  unfold mergeTimes; split <;> rfl

theorem mergeTimes_status (p : UpdatePatch) (r0 : Reservation) :
    (mergeTimes p r0).status = r0.status := by
  unfold mergeTimes; split <;> rfl

/-! ## C3: the pending-only gate of updateReservation and its
confirmed-transition exception -/

/-- C3: when the caller owns the reservation or is an admin, (a) a patch
on a non-pending reservation whose status field is not `confirmed` fails
with the pending-only ValidationError and writes nothing, and (b) a patch
whose status field is `confirmed` is never blocked by that gate: whenever
the call succeeds, the patched time/people/notes values are all applied,
regardless of the current status. -/
theorem C3_update_pending_gate (db : DB) (rid callerId : Nat) (role : Role)
    (p : UpdatePatch) (r0 : Reservation)
    (hfind : findReservation db rid = some r0)
    (hauth : r0.user = callerId ∨ role = Role.admin) :
    (r0.status ≠ RStatus.pending → p.status ≠ some RStatus.confirmed →
      updateReservation db rid callerId role p =
        (db, some (Err.validation "Can only modify pending reservations"))) ∧
    (p.status = some RStatus.confirmed →
      (updateReservation db rid callerId role p).2 = none →
      ∃ r1, findReservation (updateReservation db rid callerId role p).1 rid = some r1 ∧
        r1.startTime = p.startTime.getD r0.startTime ∧
        r1.endTime = p.endTime.getD r0.endTime ∧
        r1.numberOfPeople = p.numberOfPeople.getD r0.numberOfPeople ∧
        r1.notes = p.notes.getD r0.notes ∧
        r1.status = RStatus.confirmed) := by
  have hauthB : ¬(r0.user ≠ callerId ∧ role ≠ Role.admin) := by
    rcases hauth with h1 | h1
    · exact fun hcon => hcon.1 h1
    · exact fun hcon => hcon.2 h1
  constructor
  · intro hst hps
    simp only [updateReservation, hfind]
    rw [if_neg hauthB, if_pos ⟨hst, hps⟩]
  · intro hps
    have hgateF : ¬(r0.status ≠ RStatus.pending ∧ p.status ≠ some RStatus.confirmed) :=
      fun hcon => hcon.2 hps
    simp only [updateReservation, hfind]
    rw [if_neg hauthB, if_neg hgateF]
    split
    · intro hsucc
      simp at hsucc
    split
    · rename_i hn
      intro _
      obtain ⟨r2, heq, hid, hroom, hdate, hs, he, huser, hpeople, hnotes, hstat⟩ :=
        updateFinish_eq db p (mergeTimes p r0)
      rw [heq]
      dsimp only
      refine ⟨r2, ?_, ?_, ?_, ?_, ?_, ?_⟩
      · exact find?_map_replace Reservation.id r2 hfind (hid.trans (mergeTimes_id p r0))
      · rw [hs, mergeTimes_start]
      · rw [he, mergeTimes_end]
      · simp [hpeople, mergeTimes_people, hn]
      · rw [hnotes, mergeTimes_notes]
      · rcases hstat with ⟨_, h2⟩ | ⟨hc, _⟩ | ⟨_, hc, _⟩
        · exact h2
        · exact absurd (hps.symm.trans hc) (by simp)
        · exact absurd hps hc
    · rename_i n hn
      split
      · intro hsucc
        simp at hsucc
      rename_i room0 hroomfind
      split
      · intro hsucc
        simp at hsucc
      · intro _
        obtain ⟨r2, heq, hid, hroom, hdate, hs, he, huser, hpeople, hnotes, hstat⟩ :=
          updateFinish_eq db p { mergeTimes p r0 with numberOfPeople := n }
        rw [heq]
        dsimp only
        have hs' : ({ mergeTimes p r0 with numberOfPeople := n } : Reservation).startTime
            = p.startTime.getD r0.startTime := mergeTimes_start p r0
        have he' : ({ mergeTimes p r0 with numberOfPeople := n } : Reservation).endTime
            = p.endTime.getD r0.endTime := mergeTimes_end p r0
        have hn' : ({ mergeTimes p r0 with numberOfPeople := n } : Reservation).notes
            = r0.notes := mergeTimes_notes p r0
        have hi' : ({ mergeTimes p r0 with numberOfPeople := n } : Reservation).id
            = r0.id := mergeTimes_id p r0
        refine ⟨r2, ?_, ?_, ?_, ?_, ?_, ?_⟩
        · exact find?_map_replace Reservation.id r2 hfind (hid.trans hi')
        · rw [hs, hs']
        · rw [he, he']
        · simp [hpeople, hn]
        · rw [hnotes, hn']
        · rcases hstat with ⟨_, h2⟩ | ⟨hc, _⟩ | ⟨_, hc, _⟩
          · exact h2
          · exact absurd (hps.symm.trans hc) (by simp)
          · exact absurd hps hc

/-- Witness for C3 on a cancelled reservation and an empty patch. -/
theorem C3_witness :
    updateReservation wDBcancelled 10 7 Role.student wPatchNone =
      (wDBcancelled, some (Err.validation "Can only modify pending reservations")) :=
  (C3_update_pending_gate wDBcancelled 10 7 Role.student wPatchNone
    (wRes 10 7 600 720 RStatus.cancelled) (by decide) (Or.inl (by decide))).1
    (by decide) (by decide)

/-! ## C4: the reservation status state machine -/

/-- C4 (counterexample): with only a check-in and a check-out, a pending
reservation jumps straight to completed, a transition outside the claimed
state machine (completed is only supposed to be reachable from
confirmed). -/
theorem C4_counterexample :
    (findReservation wDBpending 5).map Reservation.status = some RStatus.pending ∧
    (findReservation (applyOp wDBpending (Op.checkin wCheckInReq5 7 100000)) 5).map
      Reservation.status = some RStatus.pending ∧
    (findReservation (runOps wDBpending wOpsInOut) 5).map Reservation.status
      = some RStatus.completed ∧
    allowedTransition RStatus.pending RStatus.completed = false := by
  refine ⟨by decide, by decide, by decide, by decide⟩

/-- C4 (amended): every status change performed by the five operations is
one of: a change to `confirmed` via updateReservation (possible from any
current status, including terminal ones); a change from pending or
confirmed to `cancelled`; or a change to `completed` via checkOut of an
active SignIn linked to the reservation (possible from any current
status, not just confirmed). -/
theorem C4_amended_transitions (db : DB) (op : Op) (hwf : wfResIds db)
    (r r' : Reservation) (hr : r ∈ db.reservations)
    (hr' : r' ∈ (applyOp db op).reservations) (hid : r'.id = r.id)
    (hne : r'.status ≠ r.status) :
    r'.status = RStatus.confirmed ∨
    (r'.status = RStatus.cancelled ∧
      (r.status = RStatus.pending ∨ r.status = RStatus.confirmed)) ∨
    (r'.status = RStatus.completed ∧
      ∃ s ∈ db.signIns, s.reservation = r.id ∧ s.status = SStatus.active) := by
  have hsame : r' ∈ db.reservations → False := fun h' =>
    hne (congrArg Reservation.status (eq_of_mem_of_pairwise_ne hwf.2 h' hr hid))
  cases op with
  | create q =>
    simp only [applyOp] at hr'
    revert hr'
    unfold createReservation
    split
    · exact fun hr' => (hsame hr').elim
    split
    · exact fun hr' => (hsame hr').elim
    rename_i roomData hroomfind
    split
    · split
      · exact fun hr' => (hsame hr').elim
      split
      · exact fun hr' => (hsame hr').elim
      split
      · exact fun hr' => (hsame hr').elim
      · dsimp only
        intro hr'
        rcases List.mem_cons.mp hr' with heq | h'
        · have hlt := hwf.1 r hr
          rw [← hid, heq] at hlt
          simp at hlt
        · exact (hsame h').elim
    · exact fun hr' => (hsame hr').elim
  | update rid c role p =>
    simp only [applyOp] at hr'
    revert hr'
    unfold updateReservation
    split
    · exact fun hr' => (hsame hr').elim
    rename_i r0 hfind
    split
    · exact fun hr' => (hsame hr').elim
    split
    · exact fun hr' => (hsame hr').elim
    rename_i hgate
    split
    · exact fun hr' => (hsame hr').elim
    have hr0mem : r0 ∈ db.reservations := mem_of_findReservation hfind
    have hmain : ∀ arg : Reservation, arg.id = r0.id → arg.status = r0.status →
        r' ∈ (updateFinish db p arg).1.reservations →
        r'.status = RStatus.confirmed ∨
        (r'.status = RStatus.cancelled ∧
          (r.status = RStatus.pending ∨ r.status = RStatus.confirmed)) ∨
        (r'.status = RStatus.completed ∧
          ∃ s ∈ db.signIns, s.reservation = r.id ∧ s.status = SStatus.active) := by
      intro arg hargid hargst hmem
      obtain ⟨r2, heq, hid2, _, _, _, _, _, _, _, hstat⟩ := updateFinish_eq db p arg
      rw [heq] at hmem
      dsimp only at hmem
      rcases List.mem_map.mp hmem with ⟨y, hy, hfy⟩
      by_cases hyid : y.id = r2.id
      · rw [if_pos hyid] at hfy
        subst hfy
        have hrr0 : r = r0 :=
          eq_of_mem_of_pairwise_ne hwf.2 hr hr0mem
            (hid.symm.trans (hid2.trans hargid))
        rcases hstat with ⟨hpc, hst2⟩ | ⟨hpc, hst2⟩ | ⟨hst2, _, _⟩
        · exact Or.inl hst2
        · refine Or.inr (Or.inl ⟨hst2, ?_⟩)
          rcases not_and_or.mp hgate with hp | hcf
          · left; rw [hrr0]; exact not_not.mp hp
          · exact absurd ((not_not.mp hcf).symm.trans hpc) (by simp)
        · exact absurd
            ((hst2.trans hargst).trans (congrArg Reservation.status hrr0.symm)) hne
      · rw [if_neg hyid] at hfy
        exact (hsame (hfy ▸ hy)).elim
    split
    · intro hr'
      exact hmain (mergeTimes p r0) (mergeTimes_id p r0) (mergeTimes_status p r0) hr'
    · rename_i n hn
      split
      · exact fun hr' => (hsame hr').elim
      rename_i room0 hroomfind
      split
      · exact fun hr' => (hsame hr').elim
      · intro hr'
        exact hmain { mergeTimes p r0 with numberOfPeople := n }
          (mergeTimes_id p r0) (mergeTimes_status p r0) hr'
  | cancel rid c role reason now =>
    simp only [applyOp] at hr'
    revert hr'
    unfold cancelReservation
    split
    · exact fun hr' => (hsame hr').elim
    rename_i r0 hfind
    split
    · exact fun hr' => (hsame hr').elim
    split
    · rename_i hok
      dsimp only
      intro hr'
      rcases List.mem_map.mp hr' with ⟨y, hy, hfy⟩
      by_cases hyid : y.id = r0.id
      · rw [if_pos hyid] at hfy
        subst hfy
        have hrr0 : r = r0 :=
          eq_of_mem_of_pairwise_ne hwf.2 hr (mem_of_findReservation hfind)
            hid.symm
        refine Or.inr (Or.inl ⟨rfl, ?_⟩)
        rw [hrr0]
        exact hok
      · rw [if_neg hyid] at hfy
        exact (hsame (hfy ▸ hy)).elim
    · exact fun hr' => (hsame hr').elim
  | checkin q u now =>
    simp only [applyOp] at hr'
    rw [checkIn_reservations_eq] at hr'
    exact (hsame hr').elim
  | checkout sid u notes now =>
    simp only [applyOp] at hr'
    revert hr'
    unfold checkOut
    split
    · exact fun hr' => (hsame hr').elim
    rename_i s0 hfind
    split
    · exact fun hr' => (hsame hr').elim
    split
    · exact fun hr' => (hsame hr').elim
    rename_i hact
    dsimp only
    split
    · exact fun hr' => (hsame hr').elim
    rename_i room0 hroomfind
    split
    · exact fun hr' => (hsame hr').elim
    rename_i r0 hrfind
    dsimp only
    intro hr'
    rcases List.mem_map.mp hr' with ⟨y, hy, hfy⟩
    by_cases hyid : y.id = r0.id
    · rw [if_pos hyid] at hfy
      subst hfy
      have hr0mem : r0 ∈ db.reservations := mem_of_findReservation hrfind
      have hrr0 : r = r0 :=
        eq_of_mem_of_pairwise_ne hwf.2 hr hr0mem hid.symm
      refine Or.inr (Or.inr ⟨rfl, s0, List.mem_of_find?_eq_some hfind, ?_, not_not.mp hact⟩)
      have hids := findReservation_id hrfind
      rw [hrr0, ← hids]
    · rw [if_neg hyid] at hfy
      exact (hsame (hfy ▸ hy)).elim

/-- Witness for the amended C4: cancelling a pending reservation. -/
theorem C4_amended_witness :
    wResCancelled5.status = RStatus.confirmed ∨
    (wResCancelled5.status = RStatus.cancelled ∧
      (wResPending.status = RStatus.pending ∨ wResPending.status = RStatus.confirmed)) ∨
    (wResCancelled5.status = RStatus.completed ∧
      ∃ s ∈ wDBpending.signIns, s.reservation = wResPending.id ∧
        s.status = SStatus.active) :=
  C4_amended_transitions wDBpending (Op.cancel 5 7 Role.student none 99)
    ⟨by decide, by simp [wDBpending]⟩ wResPending wResCancelled5 (by decide)
    (by decide) (by decide) (by decide)

/-! ## C8: cancellation -/

/-- C8: for a cancel call by the owner or an admin, a pending/confirmed
reservation is cancelled with reason, timestamp and actor recorded, and
any other status fails with ValidationError leaving the state unchanged. -/
theorem C8_cancel (db : DB) (rid callerId : Nat) (role : Role)
    (reason : Option String) (now : Nat) (r0 : Reservation)
    (hfind : findReservation db rid = some r0)
    (hauth : r0.user = callerId ∨ role = Role.admin) :
    ((r0.status = RStatus.pending ∨ r0.status = RStatus.confirmed) →
      (cancelReservation db rid callerId role reason now).2 = none ∧
      ∃ r1, findReservation (cancelReservation db rid callerId role reason now).1 rid
          = some r1 ∧
        r1.status = RStatus.cancelled ∧ r1.cancelReason = some (reason.getD "") ∧
        r1.cancelledAt = some now ∧ r1.cancelledBy = some callerId) ∧
    (¬(r0.status = RStatus.pending ∨ r0.status = RStatus.confirmed) →
      cancelReservation db rid callerId role reason now =
        (db, some (Err.validation "Cannot cancel completed or already cancelled reservations"))) := by
  have hauthB : ¬(r0.user ≠ callerId ∧ role ≠ Role.admin) := by
    rcases hauth with h1 | h1
    · exact fun hcon => hcon.1 h1
    · exact fun hcon => hcon.2 h1
  constructor
  · intro hok
    simp only [cancelReservation, hfind]
    rw [if_neg hauthB, if_pos hok]
    refine ⟨rfl, ?_⟩
    dsimp only
    exact ⟨{ r0 with
        status := RStatus.cancelled
        cancelledAt := some now
        cancelledBy := some callerId
        cancelReason := some (reason.getD "") },
      find?_map_replace Reservation.id _ hfind rfl, rfl, rfl, rfl, rfl⟩
  · intro hbad
    simp only [cancelReservation, hfind]
    rw [if_neg hauthB, if_neg hbad]

/-- Witness for C8: cancelling the concrete pending reservation. -/
theorem C8_witness :
    (cancelReservation wDBpending 5 7 Role.student none 99).2 = none ∧
    ∃ r1, findReservation (cancelReservation wDBpending 5 7 Role.student none 99).1 5
        = some r1 ∧
      r1.status = RStatus.cancelled ∧ r1.cancelReason = some "" ∧
      r1.cancelledAt = some 99 ∧ r1.cancelledBy = some 7 :=
  (C8_cancel wDBpending 5 7 Role.student none 99 wResPending (by decide)
    (Or.inl (by decide))).1 (Or.inl (by decide))

theorem roomPreSave_id (now : Nat) (r : Room) : (roomPreSave now r).id = r.id := by
  unfold roomPreSave
  split
  · rfl
  split <;> rfl

theorem roomPreSave_occ (now : Nat) (r : Room) :
    (roomPreSave now r).currentOccupancy = r.currentOccupancy := by
  unfold roomPreSave
  split
  · rfl
  split <;> rfl

theorem signInApplyHook_id (s : SignIn) : (signInApplyHook s).id = s.id := by
  unfold signInApplyHook
  split <;> rfl

/-- The Room pre-save hook establishes the derived-status contract. -/
theorem roomPreSave_derived (now : Nat) (r : Room) :
    derivedOccStatus r (roomPreSave now r) := by
  unfold derivedOccStatus roomPreSave
  by_cases h : r.currentOccupancy > 0
  · rw [if_pos h]
    constructor
    · intro _; rfl
    · intro h0
      simp only at h0
      omega
  · rw [if_neg h]
    by_cases hm : r.occupancyStatus ≠ OccStatus.maintenance
    · rw [if_pos hm]
      constructor
      · intro hgt
        simp only at hgt
        omega
      · intro _
        exact Or.inr ⟨hm, rfl⟩
    · rw [if_neg hm]
      constructor
      · intro hgt
        simp only at hgt
        omega
      · intro _
        exact Or.inl ⟨not_not.mp hm, not_not.mp hm⟩

/-! ## C6: duplicate check-in guard -/

/-- C6: a check-in by the owner for a pending/confirmed reservation that
already has an active SignIn fails with the already-checked-in
ValidationError, creating no SignIn and changing nothing. -/
theorem C6_double_checkin (db : DB) (q : CheckInReq) (u now : Nat)
    (r0 : Reservation) (hfind : findReservation db q.reservation = some r0)
    (hu : r0.user = u)
    (hst : r0.status = RStatus.pending ∨ r0.status = RStatus.confirmed)
    (hactive : ∃ s ∈ db.signIns, s.reservation = q.reservation ∧
      s.status = SStatus.active) :
    checkIn db q u now =
      (db, some (Err.validation "Already checked in for this reservation")) := by
  have hsomeB : (findActiveSignIn db q.reservation).isSome = true := by
    rcases hactive with ⟨s, hsmem, hsr, hss⟩
    simp only [findActiveSignIn]
    rw [List.find?_isSome]
    exact ⟨s, hsmem, by simp [hsr, hss]⟩
  simp only [checkIn, hfind]
  rw [if_neg (fun hc => hc hu), if_pos hst, if_pos hsomeB]

/-- Witness for C6 on a concrete state with an active SignIn. -/
theorem C6_witness :
    checkIn wDBactive wCheckInReq5 7 500 =
      (wDBactive, some (Err.validation "Already checked in for this reservation")) :=
  C6_double_checkin wDBactive wCheckInReq5 7 500 wResPending (by decide) (by decide)
    (Or.inl (by decide)) ⟨wSignInActive, by decide, by decide, by decide⟩

/-! ## C7: non-positive duration on create -/

/-- C7 (counterexample): the create handler runs the conflict checker
before the duration check, so a zero-length request inside an existing
booking fails with Conflict, not with the non-positive-duration
ValidationError the claim requires. -/
theorem C7_counterexample :
    (findRoom wDBbooked wReqZero.room).isSome = true ∧
    wDBbooked.buildings.contains wReqZero.building = true ∧
    wReqZero.numberOfPeople ≤ wRoom.capacity ∧
    wReqZero.endTime ≤ wReqZero.startTime ∧
    createReservation wDBbooked wReqZero =
      (wDBbooked, some (Err.conflict "Time slot is already booked")) := by
  refine ⟨by decide, by decide, by decide, by decide, by decide⟩

/-- C7 (amended): a create request with valid room/building/capacity and
non-positive duration persists nothing; it fails with the
non-positive-duration ValidationError when the interval passes the
conflict checker, and with Conflict when it does not (the conflict check
runs first). -/
theorem C7_amended_duration (db : DB) (q : CreateReq) (room0 : Room)
    (hroom : findRoom db q.room = some room0)
    (hb : db.buildings.contains q.building = true)
    (hcap : q.numberOfPeople ≤ room0.capacity)
    (hp1 : q.purpose ≠ "") (hp2 : q.numberOfPeople ≠ 0)
    (hdur : q.endTime ≤ q.startTime) :
    (createReservation db q).1 = db ∧
    (checkBookingConflict db q.room q.reservationDate q.startTime q.endTime none
        = false →
      (createReservation db q).2 =
        some (Err.validation "End time must be after start time")) ∧
    (checkBookingConflict db q.room q.reservationDate q.startTime q.endTime none
        = true →
      (createReservation db q).2 =
        some (Err.conflict "Time slot is already booked")) := by
  have hmiss : ¬(q.purpose = "" ∨ q.numberOfPeople = 0) := by
    rintro (hx | hx)
    · exact hp1 hx
    · exact hp2 hx
  have hcapB : ¬(room0.capacity < q.numberOfPeople) := not_lt.mpr hcap
  have hdurB : (q.endTime : Int) - (q.startTime : Int) ≤ 0 := by
    omega
  refine ⟨?_, ?_, ?_⟩
  · simp only [createReservation, hroom]
    rw [if_neg hmiss, if_pos hb, if_neg hcapB]
    rcases hcf : checkBookingConflict db q.room q.reservationDate q.startTime
        q.endTime none
    · rw [if_neg (by simp), if_pos hdurB]
    · rw [if_pos rfl]
  · intro hcf
    simp only [createReservation, hroom]
    rw [if_neg hmiss, if_pos hb, if_neg hcapB, if_neg (by simp [hcf]), if_pos hdurB]
  · intro hcf
    simp only [createReservation, hroom]
    rw [if_neg hmiss, if_pos hb, if_neg hcapB, if_pos hcf]

/-- Witness for the amended C7 on the concrete conflicting zero-length
request. -/
theorem C7_amended_witness :
    (createReservation wDBbooked wReqZero).1 = wDBbooked ∧
    (createReservation wDBbooked wReqZero).2 =
      some (Err.conflict "Time slot is already booked") :=
  ⟨(C7_amended_duration wDBbooked wReqZero wRoom (by decide) (by decide)
      (by decide) (by decide) (by decide) (by decide)).1,
   (C7_amended_duration wDBbooked wReqZero wRoom (by decide) (by decide)
      (by decide) (by decide) (by decide) (by decide)).2.2 (by decide)⟩

/-! ## C9: derived occupancy status on room saves -/

/-- C9: every room save performed by the check-in and check-out handlers
goes through the Room pre-save hook, so the saved room is `occupied`
whenever its occupancy is positive and `available` at zero occupancy
unless it had been manually set to `maintenance`. -/
theorem C9_occupancy_status_derived :
    (∀ (db : DB) (q : CheckInReq) (u now : Nat) (room0 room1 : Room),
      findRoom db q.room = some room0 →
      (checkIn db q u now).2 = none →
      findRoom (checkIn db q u now).1 q.room = some room1 →
      derivedOccStatus room0 room1) ∧
    (∀ (db : DB) (sid u : Nat) (notes : Option String) (now : Nat)
      (s0 : SignIn) (room0 room1 : Room),
      findSignIn db sid = some s0 →
      findRoom db s0.room = some room0 →
      (checkOut db sid u notes now).2 = none →
      findRoom (checkOut db sid u notes now).1 s0.room = some room1 →
      derivedOccStatus room0 room1) := by
  constructor
  · intro db q u now room0 room1 hroom hsucc hfind1
    revert hsucc hfind1
    unfold checkIn
    split
    · intro hscc
      simp at hscc
    rename_i r hfindr
    split
    · intro hscc
      simp at hscc
    split
    · split
      · intro hscc
        simp at hscc
      · dsimp only
        split
        · intro hscc
          simp at hscc
        · rename_i roomData hfound
          intro _ hfind1
          have hEq : some room0 = some roomData := by
            rw [← hroom]
            exact hfound
          injection hEq with hEq
          subst hEq
          have hsaved := find?_map_replace Room.id
            (roomPreSave now { room0 with currentOccupancy := room0.currentOccupancy + 1 })
            hroom ((roomPreSave_id now _).trans rfl)
          have h2 : some (roomPreSave now
              { room0 with currentOccupancy := room0.currentOccupancy + 1 }) = some room1 := by
            rw [← hsaved]
            exact hfind1
          injection h2 with h2
          rw [← h2]
          exact roomPreSave_derived now _
    · intro hscc
      simp at hscc
  · intro db sid u notes now s0 room0 room1 hfinds hroom hsucc hfind1
    revert hsucc hfind1
    unfold checkOut
    split
    · intro hscc
      simp at hscc
    rename_i s0' hfind'
    have hs : s0' = s0 := by
      have h2 : some s0 = some s0' := by
        rw [← hfinds]
        exact hfind'
      injection h2 with h2
      exact h2.symm
    subst hs
    split
    · intro hscc
      simp at hscc
    split
    · intro hscc
      simp at hscc
    dsimp only
    split
    · intro hscc
      simp at hscc
    rename_i roomData hfound
    have hEq : some room0 = some roomData := by
      rw [← hroom]
      exact hfound
    injection hEq with hEq
    subst hEq
    have hsaved := find?_map_replace Room.id
      (roomPreSave now { room0 with currentOccupancy := room0.currentOccupancy - 1 })
      hroom ((roomPreSave_id now _).trans rfl)
    split
    · intro _ hfind1
      have h2 : some (roomPreSave now
          { room0 with currentOccupancy := room0.currentOccupancy - 1 }) = some room1 := by
        rw [← hsaved]
        exact hfind1
      injection h2 with h2
      rw [← h2]
      exact roomPreSave_derived now _
    · rename_i r0 hrfound
      intro _ hfind1
      have h2 : some (roomPreSave now
          { room0 with currentOccupancy := room0.currentOccupancy - 1 }) = some room1 := by
        rw [← hsaved]
        exact hfind1
      injection h2 with h2
      rw [← h2]
      exact roomPreSave_derived now _

/-- Witness for C9: the concrete check-in marks room 1 occupied. -/
theorem C9_witness : derivedOccStatus wRoom wRoomAfterCI :=
  C9_occupancy_status_derived.1 wDBpending wCheckInReq5 7 100000 wRoom wRoomAfterCI
    (by decide) (by decide) (by decide)

/-! ## C10: check-out with a dangling reservation reference -/

/-- C10: checking out an active SignIn whose linked reservation no longer
exists still succeeds: the SignIn is completed with signOutTime and
actualDuration set, the room occupancy is decremented (floored at zero),
and the reservation update is silently skipped. -/
theorem C10_checkout_dangling (db : DB) (sid u : Nat) (notes : Option String)
    (now : Nat) (s0 : SignIn) (room0 : Room)
    (hfind : findSignIn db sid = some s0) (hu : s0.user = u)
    (hact : s0.status = SStatus.active)
    (hnores : findReservation db s0.reservation = none)
    (hroom : findRoom db s0.room = some room0) :
    (checkOut db sid u notes now).2 = none ∧
    (∃ s1, findSignIn (checkOut db sid u notes now).1 sid = some s1 ∧
      s1.status = SStatus.completed ∧ s1.signOutTime = some now ∧
      s1.actualDuration =
        some (jsRoundMinutes ((now : Int) - (s0.signInTime : Int)))) ∧
    (∃ room1, findRoom (checkOut db sid u notes now).1 s0.room = some room1 ∧
      room1.currentOccupancy = room0.currentOccupancy - 1) ∧
    (checkOut db sid u notes now).1.reservations = db.reservations := by
  simp only [checkOut, hfind]
  rw [if_neg (fun hc => hc hu), if_neg (fun hc => hc hact)]
  split
  · rename_i hnone
    exact absurd (hnone.symm.trans hroom) (by simp)
  rename_i roomData hfound
  have hEq : some room0 = some roomData := by
    rw [← hroom]
    exact hfound
  injection hEq with hEq
  subst hEq
  split
  · refine ⟨rfl, ?_, ?_, rfl⟩
    · exact ⟨signInApplyHook { s0 with
          signOutTime := some now
          status := SStatus.completed
          notes := notes.getD s0.notes },
        find?_map_replace SignIn.id _ hfind (signInApplyHook_id _),
        rfl, rfl, rfl⟩
    · exact ⟨roomPreSave now
          { room0 with currentOccupancy := room0.currentOccupancy - 1 },
        find?_map_replace Room.id _ hroom ((roomPreSave_id now _).trans rfl),
        roomPreSave_occ now _⟩
  · rename_i r0 hrfound
    exact absurd (hrfound.symm.trans hnores) (by simp)

/-- Witness for C10 on a concrete dangling check-out. -/
theorem C10_witness :
    (checkOut wDBdangling 3 7 none 160000).2 = none ∧
    (∃ s1, findSignIn (checkOut wDBdangling 3 7 none 160000).1 3 = some s1 ∧
      s1.status = SStatus.completed ∧ s1.signOutTime = some 160000 ∧
      s1.actualDuration =
        some (jsRoundMinutes ((160000 : Int) - (wSignInActive.signInTime : Int)))) ∧
    (∃ room1, findRoom (checkOut wDBdangling 3 7 none 160000).1 wSignInActive.room
        = some room1 ∧
      room1.currentOccupancy = wRoom.currentOccupancy - 1) ∧
    (checkOut wDBdangling 3 7 none 160000).1.reservations =
      wDBdangling.reservations :=
  C10_checkout_dangling wDBdangling 3 7 none 160000 wSignInActive wRoom
    (by decide) (by decide) (by decide) (by decide) (by decide)

/-! ## C5: check-in followed by check-out -/

/-- C5: a successful check-in at `t1` followed immediately by a successful
check-out at `t2` of the SignIn it created yields: actualDuration equal to
the sign-in/sign-out difference rounded to whole minutes, room occupancy
back at its pre-check-in value, and the linked reservation `completed`
with checkInTime/checkOutTime stamped from the SignIn record. -/
theorem C5_checkin_checkout (db : DB) (q : CheckInReq) (u t1 t2 : Nat)
    (r0 : Reservation) (room0 : Room)
    (hfind : findReservation db q.reservation = some r0)
    (hu : r0.user = u)
    (hst : r0.status = RStatus.pending ∨ r0.status = RStatus.confirmed)
    (hnoact : findActiveSignIn db q.reservation = none)
    (hroom : findRoom db q.room = some room0) :
    (checkIn db q u t1).2 = none ∧
    (checkOut (checkIn db q u t1).1 db.nextId u none t2).2 = none ∧
    (∃ s1, findSignIn (checkOut (checkIn db q u t1).1 db.nextId u none t2).1
        db.nextId = some s1 ∧
      s1.signInTime = t1 ∧ s1.signOutTime = some t2 ∧
      s1.status = SStatus.completed ∧
      s1.actualDuration = some (jsRoundMinutes ((t2 : Int) - (t1 : Int)))) ∧
    (∃ room1, findRoom (checkOut (checkIn db q u t1).1 db.nextId u none t2).1
        q.room = some room1 ∧
      room1.currentOccupancy = room0.currentOccupancy) ∧
    (∃ r1, findReservation (checkOut (checkIn db q u t1).1 db.nextId u none t2).1
        q.reservation = some r1 ∧
      r1.status = RStatus.completed ∧ r1.checkInTime = some t1 ∧
      r1.checkOutTime = some t2) := by
  have hci : checkIn db q u t1 =
      (saveRoom
        { db with
          signIns := signInApplyHook (mkCheckInSignIn db q u t1) :: db.signIns
          nextId := db.nextId + 1 }
        { room0 with currentOccupancy := room0.currentOccupancy + 1 } t1, none) := by
    simp only [checkIn, hfind]
    rw [if_neg (fun hc => hc hu), if_pos hst, if_neg (by simp [hnoact])]
    split
    · rename_i hnone
      exact absurd (hnone.symm.trans hroom) (by simp)
    · rename_i roomData hfound
      have hEq : some room0 = some roomData := by
        rw [← hroom]
        exact hfound
      injection hEq with hEq
      subst hEq
      rfl
  rw [hci]
  dsimp only
  have hfs : findSignIn
      (saveRoom
        { db with
          signIns := signInApplyHook (mkCheckInSignIn db q u t1) :: db.signIns
          nextId := db.nextId + 1 }
        { room0 with currentOccupancy := room0.currentOccupancy + 1 } t1)
      db.nextId = some (signInApplyHook (mkCheckInSignIn db q u t1)) := by
    exact List.find?_cons_of_pos _ (by simp [signInApplyHook, mkCheckInSignIn])
  have hco : checkOut
      (saveRoom
        { db with
          signIns := signInApplyHook (mkCheckInSignIn db q u t1) :: db.signIns
          nextId := db.nextId + 1 }
        { room0 with currentOccupancy := room0.currentOccupancy + 1 } t1)
      db.nextId u none t2 =
      (saveReservation
        (saveRoom
          (saveSignIn
            (saveRoom
              { db with
                signIns := signInApplyHook (mkCheckInSignIn db q u t1) :: db.signIns
                nextId := db.nextId + 1 }
              { room0 with currentOccupancy := room0.currentOccupancy + 1 } t1)
            { signInApplyHook (mkCheckInSignIn db q u t1) with
              signOutTime := some t2
              status := SStatus.completed })
          { roomPreSave t1 { room0 with
              currentOccupancy := room0.currentOccupancy + 1 } with
            currentOccupancy :=
              (roomPreSave t1 { room0 with
                currentOccupancy := room0.currentOccupancy + 1 }).currentOccupancy - 1 }
          t2)
        { r0 with
          status := RStatus.completed
          checkInTime := some t1
          checkOutTime := some t2 }, none) := by
    simp only [checkOut, hfs]
    rw [if_neg (fun hc => hc rfl), if_neg (fun hc => hc rfl)]
    have hfr2 := find?_map_replace Room.id
      (roomPreSave t1 { room0 with currentOccupancy := room0.currentOccupancy + 1 })
      hroom ((roomPreSave_id t1 _).trans rfl)
    split
    · rename_i hnone
      exact absurd (hnone.symm.trans hfr2) (by simp)
    · rename_i roomData hfound
      have hEq : some (roomPreSave t1
          { room0 with currentOccupancy := room0.currentOccupancy + 1 })
          = some roomData := by
        rw [← hfr2]
        exact hfound
      injection hEq with hEq
      subst hEq
      split
      · rename_i hnone
        exact absurd (hnone.symm.trans hfind) (by simp)
      · rename_i r0' hrfound
        have hEq2 : some r0 = some r0' := by
          rw [← hfind]
          exact hrfound
        injection hEq2 with hEq2
        subst hEq2
        rfl
  rw [hco]
  dsimp only
  refine ⟨rfl, rfl, ?_, ?_, ?_⟩
  · refine ⟨signInApplyHook
      { signInApplyHook (mkCheckInSignIn db q u t1) with
        signOutTime := some t2
        status := SStatus.completed }, ?_, rfl, rfl, rfl, rfl⟩
    exact find?_map_replace SignIn.id _ hfs (signInApplyHook_id _)
  · refine ⟨roomPreSave t2
      { roomPreSave t1 { room0 with
          currentOccupancy := room0.currentOccupancy + 1 } with
        currentOccupancy :=
          (roomPreSave t1 { room0 with
            currentOccupancy := room0.currentOccupancy + 1 }).currentOccupancy - 1 },
      ?_, ?_⟩
    · have hfr2 := find?_map_replace Room.id
        (roomPreSave t1 { room0 with currentOccupancy := room0.currentOccupancy + 1 })
        hroom ((roomPreSave_id t1 _).trans rfl)
      exact find?_map_replace Room.id _ hfr2 ((roomPreSave_id t2 _).trans rfl)
    · have h1 : (roomPreSave t1 { room0 with
          currentOccupancy := room0.currentOccupancy + 1 }).currentOccupancy
          = room0.currentOccupancy + 1 := roomPreSave_occ t1 _
      have h2 := roomPreSave_occ t2
        { roomPreSave t1 { room0 with
            currentOccupancy := room0.currentOccupancy + 1 } with
          currentOccupancy :=
            (roomPreSave t1 { room0 with
              currentOccupancy := room0.currentOccupancy + 1 }).currentOccupancy - 1 }
      rw [h2]
      show (roomPreSave t1 { room0 with
          currentOccupancy := room0.currentOccupancy + 1 }).currentOccupancy - 1
          = room0.currentOccupancy
      rw [h1]
      omega
  · exact ⟨{ r0 with
        status := RStatus.completed
        checkInTime := some t1
        checkOutTime := some t2 },
      find?_map_replace Reservation.id _ hfind rfl, rfl, rfl, rfl⟩

/-- Witness for C5 on the concrete pending reservation: check in at
t=100000ms, check out at t=190000ms (90 seconds, rounding to 2 minutes). -/
theorem C5_witness :
    (checkIn wDBpending wCheckInReq5 7 100000).2 = none ∧
    (checkOut (checkIn wDBpending wCheckInReq5 7 100000).1 wDBpending.nextId 7
      none 190000).2 = none ∧
    (∃ s1, findSignIn (checkOut (checkIn wDBpending wCheckInReq5 7 100000).1
        wDBpending.nextId 7 none 190000).1 wDBpending.nextId = some s1 ∧
      s1.signInTime = 100000 ∧ s1.signOutTime = some 190000 ∧
      s1.status = SStatus.completed ∧
      s1.actualDuration = some (jsRoundMinutes ((190000 : Int) - (100000 : Int)))) ∧
    (∃ room1, findRoom (checkOut (checkIn wDBpending wCheckInReq5 7 100000).1
        wDBpending.nextId 7 none 190000).1 wCheckInReq5.room = some room1 ∧
      room1.currentOccupancy = wRoom.currentOccupancy) ∧
    (∃ r1, findReservation (checkOut (checkIn wDBpending wCheckInReq5 7 100000).1
        wDBpending.nextId 7 none 190000).1 wCheckInReq5.reservation = some r1 ∧
      r1.status = RStatus.completed ∧ r1.checkInTime = some 100000 ∧
      r1.checkOutTime = some 190000) :=
  C5_checkin_checkout wDBpending wCheckInReq5 7 100000 190000 wResPending wRoom
    (by decide) (by decide) (Or.inl (by decide)) (by decide) (by decide)

/-- Witness for C2: a proposal [1200,1260) touching the end of the booked
slot [600,1200) on the same room and date. -/
theorem C2_witness :
    checkBookingConflict wDBbooked 1 0 1200 1260 none = true ↔
    ∃ r, r ∈ wDBbooked.reservations ∧ r.room = 1 ∧ r.reservationDate = 0 ∧
      (r.status = RStatus.pending ∨ r.status = RStatus.confirmed) ∧
      (∀ i, (none : Option Nat) = some i → r.id ≠ i) ∧
      ¬(1260 ≤ r.startTime ∨ 1200 ≥ r.endTime) :=
  C2_hasConflict_iff wDBbooked 1 0 1200 1260 none (by decide)
